import Mathlib

/-!
Shallow embedding of the 8086 decoder/simulator (src/perfaware/part1/sim/src/main.rs).
Machine words are modelled as `Nat` with explicit reduction modulo 2^16 where the
source performs wrapping arithmetic; Rust panics (index out of range, todo, and
not-implemented arms) are modelled as `none`.
-/

namespace Sim

/-- Mirrors the Rust enum `Reg` (the nine semantic word registers). -/
inductive Reg
  | A | B | C | D | DI | SI | SP | BP | IP
deriving DecidableEq

/-- Mirrors the Rust enum `Flag`. -/
inductive Flag
  | Parity | Zero | Carry | Sign
deriving DecidableEq

/-- Mirrors the Rust enum `Region`. -/
inductive Region
  | Xtended | Low | High
deriving DecidableEq

/-- Mirrors the Rust struct `RegIndex`: a register descriptor. -/
structure RegIndex where
  region : Region
  register : Reg
  mnemonic : String
deriving DecidableEq

/-- Mirrors the Rust enum `EABase` (effective-address base selector). -/
inductive EABase
  | BxSi | BxDi | BpSi | BpDi | Si | Di
  | DirectAddr (n : Nat)
  | Bx | Bp
deriving DecidableEq

/-- Mirrors the Rust struct `EAC`: base selector plus optional signed displacement. -/
structure EAC where
  base : EABase
  displacement : Option Int
deriving DecidableEq

/-- Mirrors the Rust enum `Loc` (operand location). -/
inductive Loc
  | Reg (r : RegIndex)
  | EAC (e : EAC)
  | Imm8 (n : Nat)
  | Imm16 (n : Nat)

/-- Mirrors the Rust enum `JumpType`. -/
inductive JumpType
  | Jnz | Je | Jl | Jle | Jb | Jbe | Jp | Jo | Js | Jnl | Jg | Jnb | Ja | Jnp
  | Jno | Jns | Loop | Loopz | Loopnz | Jcxz
deriving DecidableEq

/-- Mirrors the Rust struct `Mov`. -/
structure Mov where
  src : Loc
  dst : Loc

/-- Mirrors the Rust struct `Add`. -/
structure Add where
  src : Loc
  dst : Loc

/-- Mirrors the Rust struct `Sub`. -/
structure Sub where
  src : Loc
  dst : Loc

/-- Mirrors the Rust struct `Cmp`. -/
structure Cmp where
  src : Loc
  dst : Loc

/-- Mirrors the Rust struct `Jump`: the offset is a signed 8-bit displacement. -/
structure Jump where
  typ : JumpType
  offset : Int

/-- Mirrors the Rust enum `Instruction`. -/
inductive Instruction
  | Mov (m : Mov)
  | Jump (j : Jump)
  | Add (a : Add)
  | Sub (s : Sub)
  | Cmp (c : Cmp)

/-- Mirrors the Rust struct `CPU`. The memory array is `[u8; u16::MAX]`, modelled as
a byte-valued function together with the bound `memSize`. -/
structure CPU where
  memory : Nat → Nat
  registers : Reg → Nat
  flags : Flag → Bool

/-- The length of the Rust memory array: `u16::MAX as usize`, which is 65535. -/
def memSize : Nat := 65535

/-- Mirrors Rust `check_parity`: parity-even of the low byte (`n & 0xff`). -/
def check_parity (n : Nat) : Bool :=
  ((List.range 8).countP (fun i => n.testBit i)) % 2 == 0

/-- Mirrors Rust `check_sign`: `(n as i16) < 0`, i.e. bit 15 of the 16-bit value. -/
def check_sign (n : Nat) : Bool := n.testBit 15

def RegIndex.AL : RegIndex := ⟨Region.Low, Reg.A, "AL"⟩

def RegIndex.AX : RegIndex := ⟨Region.Xtended, Reg.A, "AX"⟩

def RegIndex.BX : RegIndex := ⟨Region.Xtended, Reg.B, "BX"⟩

def RegIndex.CX : RegIndex := ⟨Region.Xtended, Reg.C, "CX"⟩

def RegIndex.DX : RegIndex := ⟨Region.Xtended, Reg.D, "DX"⟩

def RegIndex.SP : RegIndex := ⟨Region.Xtended, Reg.SP, "SP"⟩

def RegIndex.BP : RegIndex := ⟨Region.Xtended, Reg.BP, "BP"⟩

def RegIndex.SI : RegIndex := ⟨Region.Xtended, Reg.SI, "SI"⟩

def RegIndex.DI : RegIndex := ⟨Region.Xtended, Reg.DI, "DI"⟩

def RegIndex.IP : RegIndex := ⟨Region.Xtended, Reg.IP, "IP"⟩

/-- Mirrors Rust `RegIndex::acc`. -/
def RegIndex.acc (w : Bool) : RegIndex := if w then RegIndex.AX else RegIndex.AL

/-- Mirrors Rust `RegIndex::is_acc`: the descriptor is backed by physical register A. -/
def RegIndex.is_acc (r : RegIndex) : Bool :=
  match r.register with
  | Reg.A => true
  | _ => false

def CPU.getFlag (c : CPU) (f : Flag) : Bool := c.flags f

def CPU.setFlag (c : CPU) (f : Flag) (v : Bool) : CPU :=
  { c with flags := fun f' => if f' = f then v else c.flags f' }

def CPU.setReg (c : CPU) (r : Reg) (v : Nat) : CPU :=
  { c with registers := fun r' => if r' = r then v else c.registers r' }

/-- Mirrors Rust `CPU::get_offset`. The arms absent from the source `match`
(`BxSi`, `BxDi`, `BpDi`, `Si`, `Di`) hit a TODO panic, modelled as `none`;
`BpSi` uses `u16::wrapping_add`. -/
def getOffset (c : CPU) : EABase → Option Nat
  | EABase.DirectAddr n => some n
  | EABase.Bx => some (c.registers RegIndex.BX.register)
  | EABase.BpSi =>
    some ((c.registers RegIndex.BP.register + c.registers RegIndex.SI.register) % 65536)
  | EABase.Bp => some (c.registers RegIndex.BP.register)
  | _ => none

/-- The linear offset for a memory operand, exactly as the source computes it:
`get_offset(base) as i32 + displacement.unwrap_or(0) as i32` (no 16-bit wrap). -/
def eacOffset (c : CPU) (e : EAC) : Option Int :=
  match getOffset c e.base with
  | none => none
  | some b => some ((b : Int) + e.displacement.getD 0)

/-- Two-byte little-endian load `memory[offset..offset+2]`; the slice panics
(`none`) unless `0 ≤ offset` and `offset + 2 ≤ memSize`. -/
def readMem2 (m : Nat → Nat) (off : Int) : Option Nat :=
  if 0 ≤ off ∧ off.toNat + 2 ≤ memSize then
    some (m off.toNat % 256 + 256 * (m (off.toNat + 1) % 256))
  else none

def writeByte (m : Nat → Nat) (a v : Nat) : Nat → Nat :=
  fun a' => if a' = a then v else m a'

/-- Two-byte little-endian store of `val.to_le_bytes()`; same bounds as `readMem2`. -/
def writeMem2 (m : Nat → Nat) (off : Int) (v : Nat) : Option (Nat → Nat) :=
  if 0 ≤ off ∧ off.toNat + 2 ≤ memSize then
    some (writeByte (writeByte m off.toNat (v % 256)) (off.toNat + 1) (v / 256 % 256))
  else none

/-- Mirrors Rust `CPU::get_src`. -/
def getSrc (c : CPU) : Loc → Option Nat
  | Loc.Imm8 n => some n
  | Loc.Imm16 n => some n
  | Loc.Reg r => some (c.registers r.register)
  | Loc.EAC e =>
    match eacOffset c e with
    | none => none
    | some off => readMem2 c.memory off

/-- Mirrors Rust `CPU::set_dest`; an immediate destination is `unreachable!`. -/
def setDest (c : CPU) : Loc → Nat → Option CPU
  | Loc.Reg r, v => some (c.setReg r.register v)
  | Loc.EAC e, v =>
    match eacOffset c e with
    | none => none
    | some off =>
      match writeMem2 c.memory off v with
      | none => none
      | some m' => some { c with memory := m' }
  | Loc.Imm8 _, _ => none
  | Loc.Imm16 _, _ => none

/-- Mirrors Rust `CPU::exec`. Returns the updated CPU and the jump offset; a panic
anywhere inside (unimplemented jump, bad memory access, TODO base selector) is
`none`. Wrapping u16 arithmetic is written with explicit `% 65536`. -/
def exec (c : CPU) : Instruction → Option (CPU × Int)
  | Instruction.Mov m =>
    match getSrc c m.src with
    | none => none
    | some s =>
      match setDest c m.dst s with
      | none => none
      | some c1 => some (c1, 0)
  | Instruction.Jump j =>
    match j.typ with
    | JumpType.Jnz => some (c, if ! c.getFlag Flag.Zero then j.offset else 0)
    | _ => none
  | Instruction.Add a =>
    match getSrc c a.src with
    | none => none
    | some s =>
      match getSrc c a.dst with
      | none => none
      | some d =>
        let sum := (s + d) % 65536
        let over : Bool := decide (65536 ≤ s + d)
        match setDest c a.dst sum with
        | none => none
        | some c1 =>
          some (((((c1.setFlag Flag.Parity (check_parity sum)).setFlag Flag.Carry
            over).setFlag Flag.Zero (sum == 0)).setFlag Flag.Sign (check_sign sum)), 0)
  | Instruction.Sub sb =>
    match getSrc c sb.src with
    | none => none
    | some s =>
      match getSrc c sb.dst with
      | none => none
      | some d =>
        let diff := (d + 65536 - s % 65536) % 65536
        let over : Bool := decide (d % 65536 < s % 65536)
        match setDest c sb.dst diff with
        | none => none
        | some c1 =>
          some (((((c1.setFlag Flag.Zero (diff == 0)).setFlag Flag.Parity
            (check_parity diff)).setFlag Flag.Carry over).setFlag Flag.Sign
            (check_sign diff)), 0)
  | Instruction.Cmp cp =>
    match getSrc c cp.src with
    | none => none
    | some s =>
      match getSrc c cp.dst with
      | none => none
      | some d =>
        let diff := (s + 65536 - d % 65536) % 65536
        let over : Bool := decide (s % 65536 < d % 65536)
        some (((((c.setFlag Flag.Zero (diff == 0)).setFlag Flag.Parity
          (check_parity diff)).setFlag Flag.Carry over).setFlag Flag.Sign
          (check_sign diff)), 0)

/-- Mirrors Rust `EABase::asm`. -/
def EABase.asm : EABase → String
  | EABase.BxSi => "bx + si"
  | EABase.BxDi => "bx + di"
  | EABase.BpSi => "bp + si"
  | EABase.BpDi => "bp + di"
  | EABase.Si => "si"
  | EABase.Di => "di"
  | EABase.Bx => "bx"
  | EABase.Bp => "bp"
  | EABase.DirectAddr n => toString n

/-- Mirrors Rust `EAC::asm`: the `Some(d @ 0..)` arm covers every non-negative
displacement, zero included. The negative arm prints `-d` where `d` is an
`i16`, so the negation is 16-bit and is written with an explicit
two's-complement wrap: at `d = -32768` the negation overflows (an overflow
panic under debug assertions; in release the wrap modelled here, whose
`toString` renders `-32768`, printing a double minus). For every other `i16`
value the wrapped negation equals the exact one. -/
def EAC.asm (e : EAC) : String :=
  match e.displacement with
  | none => "[" ++ e.base.asm ++ "]"
  | some d =>
    if 0 ≤ d then "[" ++ e.base.asm ++ " + " ++ toString d ++ "]"
    else "[" ++ e.base.asm ++ " - " ++ toString ((-d + 32768) % 65536 - 32768) ++ "]"

/-- Mirrors Rust `estimate_8086_eac` (table 2-20). -/
def estimate_8086_eac (e : EAC) : Option Nat :=
  match e.base with
  | EABase.DirectAddr _ =>
    match e.displacement with
    | none => some 6
    | some _ => none
  | EABase.Bx | EABase.Bp | EABase.Si | EABase.Di =>
    match e.displacement with
    | none => some 5
    | some d => some (if d = 0 then 5 else 9)
  | EABase.BpDi | EABase.BxSi =>
    match e.displacement with
    | none => some 7
    | some _ => some 11
  | EABase.BpSi | EABase.BxDi =>
    match e.displacement with
    | none => some 8
    | some _ => some 12

/-- Mirrors Rust `estimate_8086` (table 2-21): only the Mov and Add arms exist;
every other instruction, and every shape outside the listed patterns, panics. -/
def estimate_8086 : Instruction → Option Nat
  | Instruction.Mov m =>
    match m.dst, m.src with
    | Loc.EAC e, Loc.Reg r =>
      if r.is_acc then some 10 else (estimate_8086_eac e).map (fun v => 9 + v)
    | Loc.Reg r, Loc.EAC e =>
      if r.is_acc then some 10 else (estimate_8086_eac e).map (fun v => 8 + v)
    | Loc.Reg _, Loc.Reg _ => some 2
    | Loc.Reg _, Loc.Imm8 _ => some 4
    | Loc.Reg _, Loc.Imm16 _ => some 4
    | Loc.EAC e, Loc.Imm8 _ => (estimate_8086_eac e).map (fun v => 10 + v)
    | Loc.EAC e, Loc.Imm16 _ => (estimate_8086_eac e).map (fun v => 10 + v)
    | _, _ => none
  | Instruction.Add a =>
    match a.dst, a.src with
    | Loc.Reg _, Loc.Reg _ => some 3
    | Loc.Reg _, Loc.EAC e => (estimate_8086_eac e).map (fun v => 9 + v)
    | Loc.EAC e, Loc.Reg _ => (estimate_8086_eac e).map (fun v => 16 + v)
    | Loc.Reg _, Loc.Imm8 _ => some 4
    | Loc.Reg _, Loc.Imm16 _ => some 4
    | Loc.EAC e, Loc.Imm8 _ => (estimate_8086_eac e).map (fun v => 17 + v)
    | Loc.EAC e, Loc.Imm16 _ => (estimate_8086_eac e).map (fun v => 17 + v)
    | _, _ => none
  | _ => none

/-- The zero-initialized CPU produced by `CPU::new`. -/
def cpu0 : CPU := ⟨fun _ => 0, fun _ => 0, fun _ => false⟩

theorem getFlag_setFlag (c : CPU) (f g : Flag) (v : Bool) :
    (c.setFlag f v).getFlag g = if g = f then v else c.getFlag g := rfl

theorem setFlag_registers (c : CPU) (f : Flag) (v : Bool) :
    (c.setFlag f v).registers = c.registers := rfl

theorem setFlag_memory (c : CPU) (f : Flag) (v : Bool) :
    (c.setFlag f v).memory = c.memory := rfl

theorem getOffset_congr (c c' : CPU) (hr : c'.registers = c.registers) (b : EABase) :
    getOffset c' b = getOffset c b := by
  cases b <;> simp [getOffset, hr]

theorem eacOffset_congr (c c' : CPU) (hr : c'.registers = c.registers) (e : EAC) :
    eacOffset c' e = eacOffset c e := by
  simp [eacOffset, getOffset_congr c c' hr]

theorem getSrc_congr (c c' : CPU) (hr : c'.registers = c.registers)
    (hm : c'.memory = c.memory) (l : Loc) : getSrc c' l = getSrc c l := by
  cases l <;> simp [getSrc, hr, hm, eacOffset_congr c c' hr]

theorem getSrc_setFlag (c : CPU) (f : Flag) (v : Bool) (l : Loc) :
    getSrc (c.setFlag f v) l = getSrc c l :=
  getSrc_congr c (c.setFlag f v) rfl rfl l

theorem setDest_flags (c c1 : CPU) (l : Loc) (v : Nat)
    (h : setDest c l v = some c1) : c1.flags = c.flags := by
  cases l with
  | Reg r =>
    simp only [setDest, Option.some.injEq] at h
    subst h; rfl
  | EAC e =>
    simp only [setDest] at h
    cases ho : eacOffset c e with
    | none => rw [ho] at h; cases h
    | some off =>
      simp only [ho] at h
      cases hw : writeMem2 c.memory off v with
      | none =>
        simp only [hw] at h
        exact Option.noConfusion h
      | some m' =>
        simp only [hw, Option.some.injEq] at h
        subst h; rfl
  | Imm8 n => cases h
  | Imm16 n => cases h

theorem getSrc_setDest (c c1 : CPU) (l : Loc) (v : Nat) (hv : v < 65536)
    (h : setDest c l v = some c1) : getSrc c1 l = some v := by
  cases l with
  | Reg r =>
    simp only [setDest, Option.some.injEq] at h
    subst h
    simp [getSrc, CPU.setReg]
  | EAC e =>
    simp only [setDest] at h
    cases ho : eacOffset c e with
    | none => rw [ho] at h; cases h
    | some off =>
      simp only [ho] at h
      cases hw : writeMem2 c.memory off v with
      | none =>
        simp only [hw] at h
        exact Option.noConfusion h
      | some m' =>
        simp only [hw, Option.some.injEq] at h
        subst h
        have hr : ({ c with memory := m' } : CPU).registers = c.registers := rfl
        simp only [getSrc, eacOffset_congr c _ hr, ho]
        simp only [writeMem2] at hw
        by_cases hb : 0 ≤ off ∧ off.toNat + 2 ≤ memSize
        · rw [if_pos hb] at hw
          simp only [Option.some.injEq] at hw
          subst hw
          have e1 : writeByte (writeByte c.memory off.toNat (v % 256)) (off.toNat + 1)
              (v / 256 % 256) off.toNat = v % 256 := by
            simp [writeByte]
          have e2 : writeByte (writeByte c.memory off.toNat (v % 256)) (off.toNat + 1)
              (v / 256 % 256) (off.toNat + 1) = v / 256 % 256 := by
            simp [writeByte]
          simp only [readMem2]
          rw [if_pos hb, e1, e2]
          have hdiv : v / 256 < 256 := by omega
          congr 1
          omega
        · rw [if_neg hb] at hw; cases hw
  | Imm8 n => cases h
  | Imm16 n => cases h

/-- Claim C1 (code bug): `Cmp` does not perform the same computation as `Sub`.
On a zeroed CPU, `cmp ax, 1` (dst = AX = 0, src = immediate 1) computes
`src - dst = 1`, leaving Parity, Zero, Sign and Carry all clear, while
`sub ax, 1` computes `dst - src = 0xFFFF`, setting Parity, Sign and Carry.
If Cmp were Sub-with-result-discarded, the two flag tuples would be equal. -/
theorem C1_cmp_operand_swap :
    ((exec cpu0 (Instruction.Cmp ⟨Loc.Imm16 1, Loc.Reg RegIndex.AX⟩)).map
        (fun p => (p.1.getFlag Flag.Parity, p.1.getFlag Flag.Zero,
          p.1.getFlag Flag.Sign, p.1.getFlag Flag.Carry)) =
      some (false, false, false, false)) ∧
    ((exec cpu0 (Instruction.Sub ⟨Loc.Imm16 1, Loc.Reg RegIndex.AX⟩)).map
        (fun p => (p.1.getFlag Flag.Parity, p.1.getFlag Flag.Zero,
          p.1.getFlag Flag.Sign, p.1.getFlag Flag.Carry)) =
      some (true, false, true, true)) := by
  constructor <;> rfl

/-- Claim C2 counterexample: a `je` jump with Zero clear should, per the claim,
execute and return 0; instead `exec` hits the not-implemented panic. -/
theorem C2_counterexample :
    (exec cpu0 (Instruction.Jump ⟨JumpType.Je, 5⟩)).isSome = false := by
  rfl

/-- Claim C3 (code bug): the memory array length is `u16::MAX` = 65535, not
65536, so the two-byte access at effective address 65534 is out of bounds
(while 65533 is the last in-bounds word address). -/
theorem C3_memory_size :
    memSize = 65535 ∧
    (exec cpu0 (Instruction.Mov ⟨Loc.EAC ⟨EABase.DirectAddr 65534, none⟩,
      Loc.Reg RegIndex.AX⟩)).isSome = false ∧
    (exec cpu0 (Instruction.Mov ⟨Loc.EAC ⟨EABase.DirectAddr 65533, none⟩,
      Loc.Reg RegIndex.AX⟩)).isSome = true := by
  refine ⟨rfl, rfl, rfl⟩

/-- Claim C4 counterexample: with BX = 0 the operand `[bx - 3]` has sum
0 + (-3) = -3. The claim says the access wraps to address 65533 mod 2^16 —
an address at which a read succeeds (second conjunct) — but the actual
operand read panics (`none`): the sum is not reduced modulo 2^16. -/
theorem C4_counterexample :
    getSrc cpu0 (Loc.EAC ⟨EABase.Bx, some (-3)⟩) = none ∧
    readMem2 cpu0.memory (((0 : Int) + (-3)) % 65536) = some 0 := by
  constructor <;> rfl

/-- Claim C5 counterexample: the base selector `Si` hits the TODO panic in
`get_offset`, so a `mov` with operand `[si]` aborts. -/
theorem C5_counterexample :
    getOffset cpu0 EABase.Si = none ∧
    (exec cpu0 (Instruction.Mov ⟨Loc.EAC ⟨EABase.Si, none⟩,
      Loc.Reg RegIndex.AX⟩)).isSome = false := by
  constructor <;> rfl

/-- Claim C8 counterexample: the cycle estimator panics (not-implemented) on a
register-to-register `sub` and `cmp`, while the same-shape `add` costs 3. -/
theorem C8_counterexample :
    estimate_8086 (Instruction.Sub ⟨Loc.Reg RegIndex.BX, Loc.Reg RegIndex.CX⟩) = none ∧
    estimate_8086 (Instruction.Cmp ⟨Loc.Reg RegIndex.BX, Loc.Reg RegIndex.CX⟩) = none ∧
    estimate_8086 (Instruction.Add ⟨Loc.Reg RegIndex.BX, Loc.Reg RegIndex.CX⟩) = some 3 := by
  refine ⟨rfl, rfl, rfl⟩

/-- Claim C9 counterexample: a displacement of `Some 0` renders as `[bp + 0]`,
not as `[bp]`, so `None` and `Some 0` do not render identically. -/
theorem C9_counterexample :
    EAC.asm ⟨EABase.Bp, some 0⟩ = "[bp + 0]" ∧
    EAC.asm ⟨EABase.Bp, none⟩ = "[bp]" ∧
    EAC.asm ⟨EABase.Bp, some 0⟩ ≠ EAC.asm ⟨EABase.Bp, none⟩ := by
  refine ⟨rfl, rfl, by decide⟩

/-- Claim C2 (amended): only the `jnz` predicate is implemented. For a Jump of
kind `Jnz`, `exec` returns the signed displacement when Zero is clear and 0
when it is set; every other jump kind — including the Z-, C-, S-, P- and
CX-based ones the claim lists — hits the fatal not-implemented panic. -/
theorem C2_only_jnz_implemented (c : CPU) (j : Jump) :
    (j.typ = JumpType.Jnz →
      exec c (Instruction.Jump j) =
        some (c, if c.getFlag Flag.Zero then 0 else j.offset)) ∧
    (j.typ ≠ JumpType.Jnz → exec c (Instruction.Jump j) = none) := by
  constructor
  · intro h
    cases hz : c.getFlag Flag.Zero <;> simp [exec, h, hz]
  · intro h
    cases ht : j.typ
    case Jnz => exact absurd ht h
    all_goals simp [exec, ht]

theorem C2_witness :
    exec cpu0 (Instruction.Jump ⟨JumpType.Jnz, 7⟩) =
      some (cpu0, if cpu0.getFlag Flag.Zero then 0 else 7) ∧
    exec cpu0 (Instruction.Jump ⟨JumpType.Jl, 7⟩) = none :=
  ⟨(C2_only_jnz_implemented cpu0 ⟨JumpType.Jnz, 7⟩).1 rfl,
   (C2_only_jnz_implemented cpu0 ⟨JumpType.Jl, 7⟩).2 (by decide)⟩

/-- Claim C4 (amended): the linear offset of a memory operand is the exact
signed sum `base_value(base) + (displacement or 0)` with no reduction modulo
2^16. When the sum is within bounds the bytes accessed are exactly `sum` and
`sum + 1`; a negative sum, or one whose two-byte access passes `memSize`,
panics instead of wrapping. -/
theorem C4_eac_offset_no_wrap (c : CPU) (e : EAC) (b : Nat)
    (hb : getOffset c e.base = some b) :
    eacOffset c e = some ((b : Int) + e.displacement.getD 0) ∧
    (0 ≤ (b : Int) + e.displacement.getD 0 ∧
        ((b : Int) + e.displacement.getD 0).toNat + 2 ≤ memSize →
      getSrc c (Loc.EAC e) =
        some (c.memory ((b : Int) + e.displacement.getD 0).toNat % 256 +
          256 * (c.memory (((b : Int) + e.displacement.getD 0).toNat + 1) % 256))) ∧
    ((b : Int) + e.displacement.getD 0 < 0 → getSrc c (Loc.EAC e) = none) ∧
    (memSize < ((b : Int) + e.displacement.getD 0).toNat + 2 →
      getSrc c (Loc.EAC e) = none) := by
  have ho : eacOffset c e = some ((b : Int) + e.displacement.getD 0) := by
    simp [eacOffset, hb]
  refine ⟨ho, ?_, ?_, ?_⟩
  · intro hcond
    simp [getSrc, ho, readMem2, hcond]
  · intro hneg
    have hcon : ¬ (0 ≤ (b : Int) + e.displacement.getD 0 ∧
        ((b : Int) + e.displacement.getD 0).toNat + 2 ≤ memSize) := by
      intro hcon
      omega
    simp [getSrc, ho, readMem2, hcon]
  · intro hbig
    have hcon : ¬ (0 ≤ (b : Int) + e.displacement.getD 0 ∧
        ((b : Int) + e.displacement.getD 0).toNat + 2 ≤ memSize) := by
      intro hcon
      omega
    simp [getSrc, ho, readMem2, hcon]

theorem C4_witness :
    getSrc cpu0 (Loc.EAC ⟨EABase.DirectAddr 10, some 5⟩) =
      some (cpu0.memory ((10 : Int) + 5).toNat % 256 +
        256 * (cpu0.memory (((10 : Int) + 5).toNat + 1) % 256)) :=
  (C4_eac_offset_no_wrap cpu0 ⟨EABase.DirectAddr 10, some 5⟩ 10 rfl).2.1 (by decide)

/-- Claim C5 (amended): `get_offset` is defined only for the four selectors the
source handles — DirectAddr(n) yields n, Bx yields BX, Bp yields BP, and BpSi
yields the wrapping 16-bit sum BP+SI; the remaining five selectors (BxSi,
BxDi, BpDi, Si, Di) hit the TODO panic, so an instruction whose memory operand
uses one of them aborts. -/
theorem C5_get_offset_partial (c : CPU) (n : Nat) :
    getOffset c (EABase.DirectAddr n) = some n ∧
    getOffset c EABase.Bx = some (c.registers Reg.B) ∧
    getOffset c EABase.Bp = some (c.registers Reg.BP) ∧
    getOffset c EABase.BpSi =
      some ((c.registers Reg.BP + c.registers Reg.SI) % 65536) ∧
    getOffset c EABase.BxSi = none ∧
    getOffset c EABase.BxDi = none ∧
    getOffset c EABase.BpDi = none ∧
    getOffset c EABase.Si = none ∧
    getOffset c EABase.Di = none :=
  ⟨rfl, rfl, rfl, rfl, rfl, rfl, rfl, rfl, rfl⟩

/-- Claim C6: for every Add whose operand reads and destination write succeed,
`exec` stores `(dst + src) mod 2^16` into the destination, returns jump offset
0, and sets Zero, Sign, Parity and Carry exactly as the claim predicts. -/
theorem C6_add_semantics (c : CPU) (a : Add) (s d : Nat)
    (h1 : getSrc c a.src = some s) (h2 : getSrc c a.dst = some d)
    (h3 : (setDest c a.dst ((s + d) % 65536)).isSome = true) :
    ∃ c', exec c (Instruction.Add a) = some (c', 0) ∧
      getSrc c' a.dst = some ((s + d) % 65536) ∧
      (c'.getFlag Flag.Zero = true ↔ (s + d) % 65536 = 0) ∧
      c'.getFlag Flag.Sign = ((s + d) % 65536).testBit 15 ∧
      c'.getFlag Flag.Parity = check_parity ((s + d) % 65536) ∧
      (c'.getFlag Flag.Carry = true ↔ 65536 ≤ s + d) := by
  obtain ⟨c1, hc1⟩ := Option.isSome_iff_exists.mp h3
  refine ⟨(((c1.setFlag Flag.Parity (check_parity ((s + d) % 65536))).setFlag
      Flag.Carry (decide (65536 ≤ s + d))).setFlag Flag.Zero
      (((s + d) % 65536) == 0)).setFlag Flag.Sign (check_sign ((s + d) % 65536)),
    by simp [exec, h1, h2, hc1], ?_, ?_, ?_, ?_, ?_⟩
  · rw [getSrc_setFlag, getSrc_setFlag, getSrc_setFlag, getSrc_setFlag]
    exact getSrc_setDest c c1 a.dst _ (Nat.mod_lt _ (by norm_num)) hc1
  · simp [getFlag_setFlag]
  · simp [getFlag_setFlag, check_sign]
  · simp [getFlag_setFlag]
  · simp [getFlag_setFlag]

theorem C6_witness :
    ∃ c', exec cpu0 (Instruction.Add ⟨Loc.Imm16 65535, Loc.Reg RegIndex.AX⟩) =
        some (c', 0) ∧
      getSrc c' (Loc.Reg RegIndex.AX) = some ((65535 + 0) % 65536) ∧
      (c'.getFlag Flag.Zero = true ↔ (65535 + 0) % 65536 = 0) ∧
      c'.getFlag Flag.Sign = ((65535 + 0) % 65536).testBit 15 ∧
      c'.getFlag Flag.Parity = check_parity ((65535 + 0) % 65536) ∧
      (c'.getFlag Flag.Carry = true ↔ 65536 ≤ 65535 + 0) :=
  C6_add_semantics cpu0 ⟨Loc.Imm16 65535, Loc.Reg RegIndex.AX⟩ 65535 0 rfl rfl rfl

theorem exec_mov_ret (c : CPU) (m : Mov) (c' : CPU) (off : Int)
    (h : exec c (Instruction.Mov m) = some (c', off)) : off = 0 := by
  simp only [exec] at h
  cases hs : getSrc c m.src with
  | none => rw [hs] at h; cases h
  | some s =>
    simp only [hs] at h
    cases hd : setDest c m.dst s with
    | none =>
      simp only [hd] at h
      exact Option.noConfusion h
    | some c1 =>
      simp only [hd, Option.some.injEq, Prod.mk.injEq] at h
      exact h.2.symm

theorem exec_add_ret (c : CPU) (a : Add) (c' : CPU) (off : Int)
    (h : exec c (Instruction.Add a) = some (c', off)) : off = 0 := by
  simp only [exec] at h
  cases hs : getSrc c a.src with
  | none => rw [hs] at h; cases h
  | some s =>
    simp only [hs] at h
    cases hd : getSrc c a.dst with
    | none =>
      simp only [hd] at h
      exact Option.noConfusion h
    | some d =>
      simp only [hd] at h
      cases hsd : setDest c a.dst ((s + d) % 65536) with
      | none =>
        simp only [hsd] at h
        exact Option.noConfusion h
      | some c1 =>
        simp only [hsd, Option.some.injEq, Prod.mk.injEq] at h
        exact h.2.symm

theorem exec_sub_ret (c : CPU) (sb : Sub) (c' : CPU) (off : Int)
    (h : exec c (Instruction.Sub sb) = some (c', off)) : off = 0 := by
  simp only [exec] at h
  cases hs : getSrc c sb.src with
  | none => rw [hs] at h; cases h
  | some s =>
    simp only [hs] at h
    cases hd : getSrc c sb.dst with
    | none =>
      simp only [hd] at h
      exact Option.noConfusion h
    | some d =>
      simp only [hd] at h
      cases hsd : setDest c sb.dst ((d + 65536 - s % 65536) % 65536) with
      | none =>
        simp only [hsd] at h
        exact Option.noConfusion h
      | some c1 =>
        simp only [hsd, Option.some.injEq, Prod.mk.injEq] at h
        exact h.2.symm

theorem exec_cmp_ret (c : CPU) (cp : Cmp) (c' : CPU) (off : Int)
    (h : exec c (Instruction.Cmp cp) = some (c', off)) : off = 0 := by
  simp only [exec] at h
  cases hs : getSrc c cp.src with
  | none => rw [hs] at h; cases h
  | some s =>
    simp only [hs] at h
    cases hd : getSrc c cp.dst with
    | none =>
      simp only [hd] at h
      exact Option.noConfusion h
    | some d =>
      simp only [hd, Option.some.injEq, Prod.mk.injEq] at h
      exact h.2.symm

theorem exec_jump_inv (c : CPU) (j : Jump) (c' : CPU) (off : Int)
    (h : exec c (Instruction.Jump j) = some (c', off)) :
    j.typ = JumpType.Jnz ∧ c' = c ∧
      off = (if ! c.getFlag Flag.Zero then j.offset else 0) := by
  cases ht : j.typ
  case Jnz =>
    simp only [exec, ht, Option.some.injEq, Prod.mk.injEq] at h
    exact ⟨rfl, h.1.symm, h.2.symm⟩
  all_goals (simp only [exec, ht] at h; exact Option.noConfusion h)

/-- Claim C7: a successful Mov stores the source value into the destination,
returns jump offset 0, and leaves all four flags unchanged; and for every
instruction, `exec` returns a non-zero offset only for a taken jump (which in
this scope is a `jnz` with Zero clear). -/
theorem C7_mov_frame_and_jump_only :
    (∀ (c : CPU) (m : Mov) (s : Nat), getSrc c m.src = some s → s < 65536 →
      (setDest c m.dst s).isSome = true →
      ∃ c1, exec c (Instruction.Mov m) = some (c1, 0) ∧
        (∀ f, c1.getFlag f = c.getFlag f) ∧ getSrc c1 m.dst = some s) ∧
    (∀ (c : CPU) (i : Instruction) (c' : CPU) (off : Int),
      exec c i = some (c', off) → off ≠ 0 →
      ∃ j, i = Instruction.Jump j ∧ j.typ = JumpType.Jnz ∧
        c.getFlag Flag.Zero = false ∧ off = j.offset) := by
  constructor
  · intro c m s h1 hs h3
    obtain ⟨c1, hc1⟩ := Option.isSome_iff_exists.mp h3
    refine ⟨c1, by simp [exec, h1, hc1], ?_, getSrc_setDest c c1 m.dst s hs hc1⟩
    intro f
    have hfl := setDest_flags c c1 m.dst s hc1
    simp [CPU.getFlag, hfl]
  · intro c i c' off hexec hoff
    cases i with
    | Mov m => exact absurd (exec_mov_ret c m c' off hexec) hoff
    | Add a => exact absurd (exec_add_ret c a c' off hexec) hoff
    | Sub sb => exact absurd (exec_sub_ret c sb c' off hexec) hoff
    | Cmp cp => exact absurd (exec_cmp_ret c cp c' off hexec) hoff
    | Jump j =>
      obtain ⟨ht, hc, hoffeq⟩ := exec_jump_inv c j c' off hexec
      cases hb : c.getFlag Flag.Zero
      · rw [hb] at hoffeq
        simp at hoffeq
        exact ⟨j, rfl, ht, hb ▸ rfl, hoffeq⟩
      · rw [hb] at hoffeq
        simp at hoffeq
        exact absurd hoffeq hoff

theorem C7_witness :
    (∃ c1, exec cpu0 (Instruction.Mov ⟨Loc.Imm16 9, Loc.Reg RegIndex.BX⟩) =
        some (c1, 0) ∧ (∀ f, c1.getFlag f = cpu0.getFlag f) ∧
        getSrc c1 (Loc.Reg RegIndex.BX) = some 9) ∧
    (∃ j, Instruction.Jump ⟨JumpType.Jnz, 7⟩ = Instruction.Jump j ∧
      j.typ = JumpType.Jnz ∧ cpu0.getFlag Flag.Zero = false ∧ (7 : Int) = j.offset) :=
  ⟨C7_mov_frame_and_jump_only.1 cpu0 ⟨Loc.Imm16 9, Loc.Reg RegIndex.BX⟩ 9 rfl
      (by decide) rfl,
   C7_mov_frame_and_jump_only.2 cpu0 (Instruction.Jump ⟨JumpType.Jnz, 7⟩) cpu0 7
      rfl (by decide)⟩

/-- Claim C8 (amended): the cycle estimator is a fatal not-implemented error for
every Sub, Cmp and Jump instruction; only Mov and Add shapes are implemented,
the Add memory-destination forms costing 16 (register source) or 17 (immediate
source) plus the effective-address penalty. -/
theorem C8_estimator_sub_cmp_missing :
    (∀ s : Sub, estimate_8086 (Instruction.Sub s) = none) ∧
    (∀ cp : Cmp, estimate_8086 (Instruction.Cmp cp) = none) ∧
    (∀ j : Jump, estimate_8086 (Instruction.Jump j) = none) ∧
    (∀ (r : RegIndex) (e : EAC) (n v : Nat), estimate_8086_eac e = some v →
      estimate_8086 (Instruction.Add ⟨Loc.Reg r, Loc.EAC e⟩) = some (16 + v) ∧
      estimate_8086 (Instruction.Add ⟨Loc.Imm16 n, Loc.EAC e⟩) = some (17 + v)) := by
  refine ⟨fun s => rfl, fun cp => rfl, fun j => rfl, ?_⟩
  intro r e n v h
  constructor <;> simp [estimate_8086, h]

theorem C8_witness :
    estimate_8086 (Instruction.Add ⟨Loc.Reg RegIndex.BX, Loc.EAC ⟨EABase.Si, none⟩⟩) =
      some (16 + 5) ∧
    estimate_8086 (Instruction.Add ⟨Loc.Imm16 7, Loc.EAC ⟨EABase.Si, none⟩⟩) =
      some (17 + 5) :=
  C8_estimator_sub_cmp_missing.2.2.2 RegIndex.BX ⟨EABase.Si, none⟩ 7 5 rfl

/-- Claim C9 (amended): a displacement of `None` renders as `[base]`; `Some d`
with `d ≥ 0` — zero included — renders as `[base + d]`; `Some d` with
`-32768 < d < 0` renders as `[base - |d|]`. So `Some 0` prints `[base + 0]`,
not `[base]`. At the one remaining `i16` displacement, `d = -32768`, the
source's negation `-d` overflows: an overflow panic under debug assertions,
and under the two's-complement wrap the double-minus text `[base - -32768]`
(never `[base - 32768]`), as the last conjunct records. -/
theorem C9_eac_asm_rendering (b : EABase) (d : Int) :
    EAC.asm ⟨b, none⟩ = "[" ++ EABase.asm b ++ "]" ∧
    (0 ≤ d →
      EAC.asm ⟨b, some d⟩ = "[" ++ EABase.asm b ++ " + " ++ toString d ++ "]") ∧
    (-32768 < d ∧ d < 0 →
      EAC.asm ⟨b, some d⟩ = "[" ++ EABase.asm b ++ " - " ++ toString (-d) ++ "]") ∧
    (d = -32768 →
      EAC.asm ⟨b, some d⟩ =
        "[" ++ EABase.asm b ++ " - " ++ toString (-32768 : Int) ++ "]") := by
  refine ⟨rfl, fun h => ?_, fun h => ?_, fun h => ?_⟩
  · simp [EAC.asm, h]
  · have h' : ¬ 0 ≤ d := not_le.mpr h.2
    have hneg : (-d + 32768) % 65536 - 32768 = -d := by omega
    simp [EAC.asm, h', hneg]
  · subst h
    have h' : ¬ (0 : Int) ≤ -32768 := by decide
    have hneg : (-(-32768 : Int) + 32768) % 65536 - 32768 = -32768 := by decide
    simp [EAC.asm, h', hneg]

theorem C9_witness :
    EAC.asm ⟨EABase.Bp, some 0⟩ =
      "[" ++ EABase.asm EABase.Bp ++ " + " ++ toString (0 : Int) ++ "]" ∧
    EAC.asm ⟨EABase.Bp, some (-5)⟩ =
      "[" ++ EABase.asm EABase.Bp ++ " - " ++ toString (-(-5 : Int)) ++ "]" ∧
    EAC.asm ⟨EABase.Bp, some (-32768)⟩ =
      "[" ++ EABase.asm EABase.Bp ++ " - " ++ toString (-32768 : Int) ++ "]" :=
  ⟨(C9_eac_asm_rendering EABase.Bp 0).2.1 (by decide),
   (C9_eac_asm_rendering EABase.Bp (-5)).2.2.1 (by decide),
   (C9_eac_asm_rendering EABase.Bp (-32768)).2.2.2 rfl⟩

/-- Claim C10: for every Mov between a register descriptor backed by physical
register A and a memory operand of any addressing shape, the estimator returns
exactly 10 — the accumulator rows win over the 8+EA and 9+EA rows. -/
theorem C10_acc_mov_estimate (r : RegIndex) (e : EAC) (h : r.register = Reg.A) :
    estimate_8086 (Instruction.Mov ⟨Loc.Reg r, Loc.EAC e⟩) = some 10 ∧
    estimate_8086 (Instruction.Mov ⟨Loc.EAC e, Loc.Reg r⟩) = some 10 := by
  have hacc : r.is_acc = true := by simp [RegIndex.is_acc, h]
  constructor <;> simp [estimate_8086, hacc]

theorem C10_witness :
    estimate_8086 (Instruction.Mov ⟨Loc.Reg RegIndex.AL,
      Loc.EAC ⟨EABase.BpSi, some 4⟩⟩) = some 10 ∧
    estimate_8086 (Instruction.Mov ⟨Loc.EAC ⟨EABase.BpSi, some 4⟩,
      Loc.Reg RegIndex.AL⟩) = some 10 :=
  C10_acc_mov_estimate RegIndex.AL ⟨EABase.BpSi, some 4⟩ rfl

end Sim
